import Mathlib

/-!
Shallow embedding of the `session_log` Rust crate (src/: level.rs, error.rs,
context.rs, loggable.rs, logger.rs, session.rs, macro.rs, lib.rs).

Modelling conventions:
* Rendered text is `List Char`.  Rust `String`/`&str` values become `List Char`.
* The mutable global state (the `LOGGERS` registry, the `FILES` handle cache,
  the file system contents, the console, and the `Arc<Mutex<Vec<String>>>`
  session buffers) is an explicit `World` value threaded through every
  operation.  Session buffers are identified by a numeric id allocated from
  `World.nextBuf`, which models `Arc` sharing between a child session and its
  parent's buffer.
* Calls to `Local::now()` become explicit `DateTime` parameters.
* Fallible code (Rust `unwrap`/`panic!`/`unreachable!`) returns `Option` /
  `Except`: `none` (or an explicit panic value) models a panic.
* The synchronous (non-`async`-feature) build is modelled.
-/

namespace SessionLog

/-- `Level` from level.rs.  The source compares levels with `<=`, i.e. the
declaration order `Debug < Verbose < Info < Warning < Critical < Error < Fatal`. -/
inductive Level where
  | Debug
  | Verbose
  | Info
  | Warning
  | Critical
  | Error
  | Fatal
deriving DecidableEq, Repr

/-- Declaration-order rank of a level, the order `#[derive(PartialOrd, Ord)]`
induces and `Logger::log` / `Session::log` compare with. -/
def Level.toNat : Level → Nat
  | .Debug => 0
  | .Verbose => 1
  | .Info => 2
  | .Warning => 3
  | .Critical => 4
  | .Error => 5
  | .Fatal => 6

instance : LE Level := ⟨fun a b => a.toNat ≤ b.toNat⟩

instance (a b : Level) : Decidable (a ≤ b) :=
  inferInstanceAs (Decidable (a.toNat ≤ b.toNat))

/-- `ErrorKind` from error.rs (declared in the source; the strict constructor
that would produce it is absent from src/). -/
inductive ErrorKind where
  | DifferentLevel
  | DifferentDirectory
  | FailedToCreateFolder
deriving DecidableEq, Repr

/-- `SessionErrorKind` from error.rs.  Declared in the source and never
constructed anywhere in src/. -/
inductive SessionErrorKind where
  | SessionDied
deriving DecidableEq, Repr

/-- A timestamp, modelling `chrono::DateTime<Local>`.  Fields are the calendar
components the code reads (`year()`, `month()`, `day()`, `hour()`, ...) plus
the components `to_rfc3339_opts(SecondsFormat::Micros, true)` renders. -/
structure DateTime where
  year   : Nat
  month  : Nat
  day    : Nat
  hour   : Nat
  minute : Nat
  second : Nat
  micro  : Nat
  /-- `true` for a `+HH:MM` UTC offset, `false` for `-HH:MM`. -/
  tzPlus : Bool
  tzH    : Nat
  tzM    : Nat
deriving DecidableEq, Repr

/-- Decimal digit character for `n % 10`. -/
def digChar (n : Nat) : Char := Char.ofNat (48 + n % 10)

/-- Decimal digits of `n`, most significant first (fueled recursion). -/
def natDigsF : Nat → Nat → List Char
  | 0, _ => []
  | fuel + 1, n => if n < 10 then [digChar n] else natDigsF fuel (n / 10) ++ [digChar n]

/-- Decimal rendering of a natural number, as Rust `format!` prints it. -/
def natDigs (n : Nat) : List Char := natDigsF (n + 1) n

/-- Rust `format!` width-`w` zero padding (`{:02}`, `{:04}`, `{:06}`): pad the
decimal rendering with leading zeros up to width `w`. -/
def padNat (w n : Nat) : List Char :=
  List.replicate (w - (natDigs n).length) (Char.ofNat 48) ++ natDigs n

/-- Rust `format!` rendering of an `i64` (used for `{elapsed}`). -/
def intDigs (i : Int) : List Char :=
  if i < 0 then Char.ofNat 45 :: natDigs i.natAbs else natDigs i.natAbs

/-- `chrono`'s `to_rfc3339_opts(SecondsFormat::Micros, true)`:
`YYYY-MM-DDTHH:MM:SS.ssssss` followed by `Z` (zero offset) or `±HH:MM`. -/
def DateTime.rfc3339 (t : DateTime) : List Char :=
  padNat 4 t.year ++ ('-') :: padNat 2 t.month ++ ('-') :: padNat 2 t.day
    ++ ('T') :: padNat 2 t.hour ++ (':') :: padNat 2 t.minute ++ (':') :: padNat 2 t.second
    ++ ('.') :: padNat 6 t.micro
    ++ (if t.tzH = 0 ∧ t.tzM = 0 then [('Z')]
        else (if t.tzPlus then ('+') else ('-')) :: (padNat 2 t.tzH ++ (':') :: padNat 2 t.tzM))

/-- `Context` from context.rs: one emission event. -/
inductive Context where
  | log (time : DateTime) (level : Level) (file : List Char) (line : Nat)
        (logger : List Char) (session : Option (List Char)) (message : List Char)
  | sessionStart (time : DateTime) (file : List Char) (line : Nat)
        (logger : List Char) (session : List Char)
  | sessionEnd (time : DateTime) (elapsed : Int) (file : List Char) (line : Nat)
        (logger : List Char) (session : List Char)

/-- `Context::get_time`. -/
def Context.get_time : Context → DateTime
  | .log t _ _ _ _ _ _ => t
  | .sessionStart t _ _ _ _ => t
  | .sessionEnd t _ _ _ _ _ => t

/-- `Context::get_level`: only `Log` carries a level. -/
def Context.get_level : Context → Option Level
  | .log _ lvl _ _ _ _ _ => some lvl
  | _ => none

/-- `Context::get_file`. -/
def Context.get_file : Context → List Char
  | .log _ _ f _ _ _ _ => f
  | .sessionStart _ f _ _ _ => f
  | .sessionEnd _ _ f _ _ _ => f

/-- `Context::get_line`. -/
def Context.get_line : Context → Nat
  | .log _ _ _ l _ _ _ => l
  | .sessionStart _ _ l _ _ => l
  | .sessionEnd _ _ _ l _ _ => l

/-- `Context::get_logger`. -/
def Context.get_logger : Context → List Char
  | .log _ _ _ _ lg _ _ => lg
  | .sessionStart _ _ _ lg _ => lg
  | .sessionEnd _ _ _ _ lg _ => lg

/-- `Context::get_session`. -/
def Context.get_session : Context → Option (List Char)
  | .log _ _ _ _ _ s _ => s
  | .sessionStart _ _ _ _ s => some s
  | .sessionEnd _ _ _ _ _ s => some s

/-- `Context::get_time_str`. -/
def Context.get_time_str (c : Context) : List Char := c.get_time.rfc3339

/-- `Context::get_name`: `"{logger}:{session}"` when a session is present,
otherwise the logger name. -/
def Context.get_name (c : Context) : List Char :=
  match c.get_session with
  | some s => c.get_logger ++ (':') :: s
  | none => c.get_logger

/-- `Context::get_location_str`: `"{file}:{line}"`. -/
def Context.get_location_str (c : Context) : List Char :=
  c.get_file ++ (':') :: natDigs c.get_line

/-- `Context::get_message`. -/
def Context.get_message : Context → List Char
  | .log _ _ _ _ _ _ m => m
  | .sessionStart _ _ _ _ _ => "Session start".data
  | .sessionEnd _ _ _ _ _ _ => "Session end".data

/-- `Display for Level`, plain form (`{level}`). -/
def Level.display : Level → List Char
  | .Debug => "[D]".data
  | .Verbose => "[V]".data
  | .Info => "[I]".data
  | .Warning => "[W]".data
  | .Critical => "[C]".data
  | .Error => "[E]".data
  | .Fatal => "[F]".data

/-- `Display for Level`, alternate form (`{level:#}`), with ANSI color codes. -/
def Level.displayAlt : Level → List Char
  | .Debug => "\x1b[90m[D]\x1b[0m".data
  | .Verbose => "\x1b[90m[V]\x1b[0m".data
  | .Info => "\x1b[32m[I]\x1b[0m".data
  | .Warning => "\x1b[33m[W]\x1b[0m".data
  | .Critical => "\x1b[33m[C]\x1b[0m".data
  | .Error => "\x1b[31m[E]\x1b[0m".data
  | .Fatal => "\x1b[31m[F]\x1b[0m".data

/-- The default processor `context::processor`: maps a context to the pair
(console rendering, file rendering). -/
def processor (ctx : Context) : List Char × List Char :=
  let time := ctx.get_time_str
  let name := ctx.get_name
  let loc := ctx.get_location_str
  match ctx with
  | .log _ level _ _ _ none message =>
      (time ++ (' ') :: level.displayAlt ++ (' ') :: name ++ " - ".data ++ loc
         ++ " - ".data ++ message,
       time ++ (' ') :: level.display ++ (' ') :: name ++ " - ".data ++ loc
         ++ " - ".data ++ message)
  | .log _ level _ _ _ (some _) message =>
      (time ++ (' ') :: level.displayAlt ++ (' ') :: name ++ " - ".data ++ loc
         ++ " - ".data ++ message,
       time ++ (' ') :: level.display ++ (' ') :: loc ++ " - ".data ++ message)
  | .sessionStart _ _ _ _ _ =>
      (time ++ "     ".data ++ name ++ " - ".data ++ loc ++ " - Session start".data,
       time ++ "     ".data ++ loc ++ " - Session start".data)
  | .sessionEnd _ elapsed _ _ _ _ =>
      (time ++ "     ".data ++ name ++ " - ".data ++ loc ++ " - Session end, Elapsed: ".data
         ++ intDigs elapsed ++ "us".data,
       time ++ "     ".data ++ loc ++ " - Session end".data)

/-- `struct Inner` from logger.rs: one registry entry. -/
structure Inner where
  wrt_level : Level
  log_level : Level
  hour      : Nat
  dir       : List Char
  proc      : Context → List Char × List Char

/-- Association-list lookup (models `HashMap::get`). -/
def lookupA {β : Type} : List (List Char × β) → List Char → Option β
  | [], _ => none
  | (k, v) :: rest, key => if k = key then some v else lookupA rest key

/-- Association-list insert-or-replace (models `HashMap::insert`). -/
def updateA {β : Type} : List (List Char × β) → List Char → β → List (List Char × β)
  | [], k, v => [(k, v)]
  | (k', v') :: rest, k, v =>
      if k' = k then (k, v) :: rest else (k', v') :: updateA rest k v

/-- Numeric-key association-list lookup (session buffer ids). -/
def lookupB {β : Type} : List (Nat × β) → Nat → Option β
  | [], _ => none
  | (k, v) :: rest, key => if k = key then some v else lookupB rest key

/-- Numeric-key association-list insert-or-replace. -/
def updateB {β : Type} : List (Nat × β) → Nat → β → List (Nat × β)
  | [], k, v => [(k, v)]
  | (k', v') :: rest, k, v =>
      if k' = k then (k, v) :: rest else (k', v') :: updateB rest k v

/-- Append one written message under a file path, creating the file if absent
(models `OpenOptions::new().create(true).append(true)` + `writeln!`). -/
def appendDisk : List (List Char × List (List Char)) → List Char → List Char →
    List (List Char × List (List Char))
  | [], p, m => [(p, [m])]
  | (q, ms) :: rest, p, m =>
      if q = p then (q, ms ++ [m]) :: rest else (q, ms) :: appendDisk rest p m

/-- The explicit global state: the `LOGGERS` registry, the `FILES` per-directory
handle cache (a handle is identified by the path it was opened on), the file
system contents (`disk`: path to the sequence of `writeln!` payloads), the
console (`println!` lines, in order), and the session buffers
(`Arc<Mutex<Vec<String>>>` values, identified by allocation order). -/
structure World where
  loggers : List (List Char × Inner)
  files   : List (List Char × List Char)
  disk    : List (List Char × List (List Char))
  console : List (List Char)
  bufs    : List (Nat × List (List Char))
  nextBuf : Nat

/-- The empty initial state: no loggers, no open files, empty disk/console. -/
def World.init : World := ⟨[], [], [], [], [], 0⟩

/-- `println!`: one line appended to the console stream. -/
def World.pushConsole (w : World) (l : List Char) : World :=
  { w with console := w.console ++ [l] }

/-- `self.msgs.lock().unwrap().push(f)`: append one line to a session buffer. -/
def World.pushBuf (w : World) (id : Nat) (l : List Char) : World :=
  { w with bufs :=
      match lookupB w.bufs id with
      | some ms => updateB w.bufs id (ms ++ [l])
      | none => updateB w.bufs id [l] }

/-- `sire.lock().unwrap().append(&mut rslt)`: append many lines to a buffer. -/
def World.appendBuf (w : World) (id : Nat) (ls : List (List Char)) : World :=
  { w with bufs :=
      match lookupB w.bufs id with
      | some ms => updateB w.bufs id (ms ++ ls)
      | none => updateB w.bufs id ls }

/-- `DEFAULT_PATH` initial value (`"./logs"`). -/
def defaultPath : List Char := "./logs".data

/-- A fresh registry entry with the process-wide defaults, as inserted by
`Logger::new`: `DEFAULT_WRT_LEVEL = Verbose`, `DEFAULT_LOG_LEVEL = Info`,
`DEFAULT_PATH = "./logs"`, `hour = Local::now().hour()`, default processor. -/
def defaultInner (nowHour : Nat) : Inner :=
  { wrt_level := .Verbose
    log_level := .Info
    hour := nowHour
    dir := defaultPath
    proc := processor }

/-- `Logger::new`: insert a default entry when the name is absent, otherwise
leave the registry untouched; either way the handle is just the name. -/
def Logger.new (w : World) (name : List Char) (nowHour : Nat) : World :=
  match lookupA w.loggers name with
  | some _ => w
  | none => { w with loggers := updateA w.loggers name (defaultInner nowHour) }

/-- `get_time_tuple` from logger.rs. -/
def get_time_tuple (now : DateTime) : Nat × Nat × Nat × Nat :=
  (now.year, now.month, now.day, now.hour)

/-- `get_file_name` from logger.rs: `"{y:04}-{m:02}-{d:02}-{h:02}.log"`. -/
def get_file_name (y m d h : Nat) : List Char :=
  padNat 4 y ++ ('-') :: padNat 2 m ++ ('-') :: padNat 2 d ++ ('-') :: padNat 2 h
    ++ ".log".data

/-- Replace the cached hour of a registry entry (`*hr = now.3`). -/
def setHour : List (List Char × Inner) → List Char → Nat → List (List Char × Inner)
  | [], _, _ => []
  | (k, inn) :: rest, name, h =>
      if k = name then (k, { inn with hour := h }) :: rest
      else (k, inn) :: setHour rest name h

/-- `Logger::get_file`: resolve (rotating if needed) the open file for this
logger's directory.  Rotation happens when no handle is cached for the
directory or the entry's cached hour differs from the current hour; the new
file is named from the full `(y, m, d, h)` tuple and the cached hour updated.
`none` models the `unwrap` panic on an unregistered logger; directory and file
creation are modelled as always succeeding, as the source `unwrap`s them. -/
def Logger.get_file (w : World) (name : List Char) (now : DateTime) :
    Option (List Char × World) :=
  match lookupA w.loggers name with
  | none => none
  | some inner =>
    let dir := inner.dir
    let file := lookupA w.files dir
    if file = none ∨ (get_time_tuple now).2.2.2 ≠ inner.hour then
      let fname := get_file_name (get_time_tuple now).1 (get_time_tuple now).2.1
        (get_time_tuple now).2.2.1 (get_time_tuple now).2.2.2
      let path := dir ++ ('/') :: fname
      some (path, { w with files := updateA w.files dir path,
                           loggers := setHour w.loggers name now.hour })
    else
      match file with
      | some path => some (path, w)
      | none => none

/-- `Logger::write_line` (synchronous build): resolve the handle, then
`writeln!` the message (the message plus a newline) to it. -/
def Logger.write_line (w : World) (name : List Char) (message : List Char)
    (now : DateTime) : Option World :=
  match Logger.get_file w name now with
  | none => none
  | some (path, w') => some { w' with disk := appendDisk w'.disk path message }

/-- `Loggable for Logger::log`: format via the stored processor, print to the
console when `log_level <= level`, write to the file when `wrt_level <= level`.
`none` models the `unwrap` panics (unregistered logger, or a level-less
context, on which `ctx.get_level().unwrap()` panics). -/
def Logger.log (w : World) (name : List Char) (ctx : Context) (now : DateTime) :
    Option World :=
  match lookupA w.loggers name with
  | none => none
  | some inner =>
    let lf := inner.proc ctx
    match ctx.get_level with
    | none => none
    | some lvl =>
      let w1 := if inner.log_level ≤ lvl then w.pushConsole lf.1 else w
      if inner.wrt_level ≤ lvl then Logger.write_line w1 name lf.2 now else some w1

/-- Modelled from the spec: the strict constructor
`with_options(name, level, directory) -> Result<EntryHandle, ErrorKind>` is
absent from src/ — only its `ErrorKind` declarations exist (error.rs).  Per
spec §4.1: if an entry already exists under `name`, fail with
`DifferentLevel` / `DifferentDirectory` when the requested options disagree
with the stored ones (the single `level` argument is compared against the
stored console `log_level`, whose default `Info` matches the spec's example),
fail with `FailedToCreateFolder` when directory creation fails on first
creation (`mkdirOk` models that I/O outcome), and otherwise return the entry. -/
def Logger.with_options (w : World) (name : List Char) (level : Level)
    (dir : List Char) (mkdirOk : Bool) (nowHour : Nat) : Except ErrorKind World :=
  match lookupA w.loggers name with
  | some inner =>
      if inner.log_level ≠ level then .error .DifferentLevel
      else if inner.dir ≠ dir then .error .DifferentDirectory
      else .ok w
  | none =>
      if mkdirOk then
        let inn : Inner :=
          { wrt_level := .Verbose, log_level := level, hour := nowHour,
            dir := dir, proc := processor }
        .ok { w with loggers := updateA w.loggers name inn }
      else .error .FailedToCreateFolder

/-- `struct Session` from session.rs.  `msgs` is the id of its buffer in the
`World`; `sire` the id of the parent's buffer, when nested. -/
structure Session where
  died : Bool
  pass : Bool
  name : List Char
  root : List Char
  msgs : Nat
  sire : Option Nat
  time : DateTime
  file : List Char
  line : Nat
  ease : Bool

/-- `Loggable for Session::log`: no-op when dead or disabled; otherwise format
via the root logger's processor; a level-less context (session start/end) is
printed and buffered unconditionally, a `Log` context is printed when
`log_level <= level` and buffered when `write_level <= level`.  `none` models
the `unwrap` panic when the root logger is not registered. -/
def Session.log (w : World) (s : Session) (ctx : Context) : Option World :=
  if s.died then some w
  else if s.pass then some w
  else
    match lookupA w.loggers s.root with
    | none => none
    | some inner =>
      let lf := inner.proc ctx
      match ctx.get_level with
      | none => some ((w.pushConsole lf.1).pushBuf s.msgs lf.2)
      | some lvl =>
        let w1 := if inner.log_level ≤ lvl then w.pushConsole lf.1 else w
        let w2 := if inner.wrt_level ≤ lvl then w1.pushBuf s.msgs lf.2 else w1
        some w2

/-- `Session::new` (called by `Logger::session`): allocate a fresh buffer, no
parent, and immediately log a `SessionStart` context carrying the new
session's own name. -/
def Session.new (w : World) (name logger : List Char) (file : List Char)
    (line : Nat) (time : DateTime) : Option (Session × World) :=
  let bid := w.nextBuf
  let w1 := { w with bufs := updateB w.bufs bid [], nextBuf := bid + 1 }
  let s : Session :=
    { died := false, pass := false, name := name, root := logger, msgs := bid,
      sire := none, time := time, file := file, line := line, ease := true }
  match Session.log w1 s (.sessionStart time file line logger name) with
  | none => none
  | some w2 => some (s, w2)

/-- The ways `Loggable for Session::session` can fail. -/
inductive SessFail where
  | panicked (msg : List Char)
  | err (k : SessionErrorKind)
deriving DecidableEq, Repr

/-- `Loggable for Session::session` (child creation): on a dead session the
source runs `unreachable!("This should not be happened")` — a panic, modelled
as `SessFail.panicked`; `SessFail.err SessionErrorKind.SessionDied` is the
failure the spec describes, included in the failure type so the two can be
compared (the source never constructs it).  Otherwise a child sharing the
parent's buffer by reference is created and a `SessionStart` context is logged
whose `session` field is the *parent's* name (`&self.name`). -/
def Session.session (w : World) (s : Session) (name : List Char)
    (file : List Char) (line : Nat) (time : DateTime) :
    Except SessFail (Session × World) :=
  if s.died then .error (.panicked ("This should not be happened".data))
  else
    let bid := w.nextBuf
    let w1 := { w with bufs := updateB w.bufs bid [], nextBuf := bid + 1 }
    let child : Session :=
      { died := false, pass := false, name := name, root := s.root, msgs := bid,
        sire := some s.msgs, time := time, file := file, line := line, ease := true }
    match Session.log w1 child (.sessionStart time file line s.root s.name) with
    | none => .error (.panicked ("processor lookup".data))
    | some w2 => .ok (child, w2)

/-- UTF-8 byte size of one character. -/
def utf8Size (c : Char) : Nat :=
  if c.val < 0x80 then 1 else if c.val < 0x800 then 2
  else if c.val < 0x10000 then 3 else 4

/-- UTF-8 byte length of a string (Rust `str::len`). -/
def utf8Len (l : List Char) : Nat := (l.map utf8Size).sum

/-- Byte-prefix of a string: keep characters while their cumulative UTF-8 size
fits in `n` bytes.  Models Rust `&line[..n]`, which the source only evaluates
with `n` on a character boundary (`line.len() - 3` with the line ending in a
3-byte box-drawing glyph). -/
def takeUtf8Bytes : Nat → List Char → List Char
  | _, [] => []
  | n, c :: cs => if utf8Size c ≤ n then c :: takeUtf8Bytes (n - utf8Size c) cs else []

/-- Split a string on `'\n'`, every segment kept (`"a\nb"` gives two parts,
`""` one empty part). -/
def splitNL : List Char → List (List Char)
  | [] => [[]]
  | c :: cs =>
      let rest := splitNL cs
      if c = ('\n') then [] :: rest
      else (c :: rest.headI) :: rest.tail

/-- Rust `str::lines`: split on `'\n'`, with no trailing empty segment (an
empty string yields no lines, a trailing newline yields none either). -/
def linesOf (l : List Char) : List (List Char) :=
  let parts := splitNL l
  if parts.getLast? = some [] then parts.dropLast else parts

/-- Number of `━` glyphs in the source's border format strings (99 in both the
`┏` top and `┗` bottom line, making each border 100 characters long). -/
def borderGlyphCount : Nat := 99

/-- The top border line `┏━━…━` pushed by `Session::dump`. -/
def borderTop : List Char := ('┏') :: List.replicate borderGlyphCount ('━')

/-- The bottom border line `┗━━…━` pushed by `Session::dump`. -/
def borderBot : List Char := ('┗') :: List.replicate borderGlyphCount ('━')

/-- The body of `Session::dump`'s per-line loop: border lines (starting with
`┏` or `┗`) lose their last 3 bytes (one box glyph), nested lines (starting
with `┃` or a border glyph) get no extra space, others a single space; each
line is then prefixed with `┃`. -/
def dumpLine (line : List Char) : List Char :=
  let isBorder := line.head? = some ('┏') ∨ line.head? = some ('┗')
  let isNested := line.head? = some ('┃') ∨ isBorder
  let space : List Char := if isNested then [] else [(' ')]
  let line' := if isBorder then takeUtf8Bytes (utf8Len line - 3) line else line
  ('┃') :: (space ++ line')

/-- The bordered report built by `Session::dump` lines 112–131: top border,
`┃ Session: <name>`, `┃ Elapsed: <n>us`, `┃`, every line of every buffered
message through `dumpLine`, bottom border. -/
def boxRender (name : List Char) (elapsed : Int) (msgs : List (List Char)) :
    List (List Char) :=
  [borderTop,
   "┃ Session: ".data ++ name,
   "┃ Elapsed: ".data ++ intDigs elapsed ++ "us".data,
   [('┃')]]
  ++ (msgs.map (fun m => (linesOf m).map dumpLine)).flatten
  ++ [borderBot]

/-- `String::find("     ")`: index of the first occurrence of five consecutive
spaces (character-index model; the source's byte offsets coincide as every
character before the match in the exercised strings is ASCII). -/
def findFiveSp : List Char → Option Nat
  | [] => none
  | c :: cs =>
      if List.take 5 (c :: cs) = List.replicate 5 (' ') then some 0
      else (findFiveSp cs).map (· + 1)

/-- `String::replace_range(a..b, repl)` (character-index model). -/
def replaceRange (l : List Char) (a b : Nat) (repl : List Char) : List Char :=
  l.take a ++ repl ++ l.drop b

/-- `rslt.join("\n")`. -/
def joinNL (ls : List (List Char)) : List Char :=
  (ls.intersperse [('\n')]).flatten

/-- `Session::dump`: no-op when already dead, else set `died` once and render.
With more than 2 buffered lines (or ease-on-empty off) the full box report is
built; if the session has a parent the report's lines are appended to the
parent's buffer, otherwise the report is joined with newlines and written via
`Logger::new(root).write_line`.  With at most 2 buffered lines and ease on,
the last buffered line (the end marker) is spliced — the character after the
first five-space run is replaced by `"{root}:{name} - "` and
`", Elapsed: {elapsed}us"` appended — and written to the file (this branch
never consults the parent).  `none` models the source's `unwrap` panics. -/
def Session.dump (w : World) (s : Session) (elapsed : Int) (now : DateTime) :
    Option (Session × World) :=
  if s.died then some (s, w)
  else
    let s' := { s with died := true }
    match lookupB w.bufs s.msgs with
    | none => none
    | some msgs =>
      if ¬ s.ease ∨ msgs.length > 2 then
        let rslt := boxRender s.name elapsed msgs
        match s.sire with
        | some sid => some (s', w.appendBuf sid rslt)
        | none =>
          match Logger.write_line (Logger.new w s.root now.hour) s.root (joinNL rslt) now with
          | none => none
          | some w' => some (s', w')
      else
        match msgs.getLast? with
        | none => none
        | some lastLine =>
          match findFiveSp lastLine with
          | none => none
          | some i =>
            let idx := i + 5
            let endLine := replaceRange lastLine idx (idx + 1)
              (s.root ++ (':') :: s.name ++ " - ".data)
            let endLine := endLine ++ ", Elapsed: ".data ++ intDigs elapsed ++ "us".data
            match Logger.write_line (Logger.new w s.root now.hour) s.root
                (joinNL [endLine]) now with
            | none => none
            | some w' => some (s', w')

/-- Contents of a session buffer (empty when the id is unknown). -/
def World.bufOf (w : World) (i : Nat) : List (List Char) :=
  (lookupB w.bufs i).getD []

/-- `Drop for Session`: log a `SessionEnd` context carrying the elapsed
microseconds, then `dump`.  `current` is `Local::now()` at drop time and
`elapsed` the microsecond difference `current - self.time` the source computes
with chrono. -/
def Session.drop (w : World) (s : Session) (current : DateTime) (elapsed : Int) :
    Option (Session × World) :=
  match Session.log w s (.sessionEnd current elapsed s.file s.line s.root s.name) with
  | none => none
  | some w' => Session.dump w' s elapsed current

/-- The file path a rotation at time `now` opens for a registry entry:
`"{dir}/{get_file_name(y, m, d, h)}"`. -/
def rotPath (inner : Inner) (now : DateTime) : List Char :=
  inner.dir ++ ('/') :: get_file_name now.year now.month now.day now.hour

/-- The state after `get_file` rotates: the fresh path cached for the
directory, the entry's hour updated, nothing else touched. -/
def World.rotated (w : World) (n dir path : List Char) (h : Nat) : World :=
  { w with files := updateA w.files dir path, loggers := setHour w.loggers n h }

/-- The state after one `writeln!` of `m` under path `p`. -/
def World.addDisk (w : World) (p m : List Char) : World :=
  { w with disk := appendDisk w.disk p m }

/-- Well-formed handle cache: every cached open file path lies under the
directory it is cached for. -/
def filesWF (w : World) : Prop :=
  ∀ d p, lookupA w.files d = some p → ∃ fn, p = d ++ ('/') :: fn

/-- Characters that cannot disturb the report syntax: not a space, not a
newline, and below the box-drawing block (U+2500). -/
def plainChar (c : Char) : Prop :=
  c.toNat ≠ 32 ∧ c.toNat ≠ 10 ∧ c.toNat < 0x2500

/-- All characters plain. -/
def plainStr (l : List Char) : Prop := ∀ c ∈ l, plainChar c

/-- Characters that are neither a newline nor a box-drawing glyph (spaces
allowed). -/
def cleanChar (c : Char) : Prop := c.toNat ≠ 10 ∧ c.toNat < 0x2500

/-- All characters clean. -/
def cleanStr (l : List Char) : Prop := ∀ c ∈ l, cleanChar c

/-- The four box-drawing glyphs the report renderer uses. -/
def borderChars : List Char := [('┏'), ('┃'), ('┗'), ('━')]

instance (c : Char) : Decidable (plainChar c) := by
  unfold plainChar
  infer_instance

instance (c : Char) : Decidable (cleanChar c) := by
  unfold cleanChar
  infer_instance

instance (l : List Char) : Decidable (plainStr l) := by
  unfold plainStr
  infer_instance

instance (l : List Char) : Decidable (cleanStr l) := by
  unfold cleanStr
  infer_instance

/-! ### Concrete fixtures (used by witnesses and counterexamples) -/

/-- Fixture logger name `"m"`. -/
def nameM : List Char := "m".data

/-- Fixture session name `"ses"`. -/
def nameSes : List Char := "ses".data

/-- Fixture parent session name `"par"`. -/
def namePar : List Char := "par".data

/-- Fixture child session name `"chi"`. -/
def nameChi : List Char := "chi".data

/-- Fixture source file `"main.rs"`. -/
def fileMain : List Char := "main.rs".data

/-- A fixture timestamp: 2026-10-12 05:30:00.123456 +08:00. -/
def fixT : DateTime := ⟨2026, 10, 12, 5, 30, 0, 123456, true, 8, 0⟩

/-- A fixture timestamp one day later, same hour-of-day (hour 5): a different
`(year, month, day, hour)` bucket whose `hour` component coincides. -/
def fixT2 : DateTime := ⟨2026, 10, 13, 5, 31, 0, 3, true, 8, 0⟩

/-- Fixture world: the initial state after `Logger::new("m")` at hour 5. -/
def fixW : World := Logger.new World.init nameM 5

/-- A fixture session that has already completed (`died = true`). -/
def fixDead : Session :=
  { died := true, pass := false, name := nameSes, root := nameM, msgs := 0,
    sire := none, time := fixT, file := fileMain, line := 1, ease := true }

/-- The panic message of the `unreachable!` in `Loggable for Session::session`. -/
def panicMsg : List Char := "This should not be happened".data

/-- Child creation attempted on the dead fixture session. -/
def fixDeadChild : Except SessFail (Session × World) :=
  Session.session fixW fixDead nameChi fileMain 1 fixT

/-- Fixture parent session freshly created on logger `"m"`. -/
def fixParent : Option (Session × World) :=
  Session.new fixW namePar nameM fileMain 7 fixT

/-- Fixture child session nested under `fixParent` (no real content). -/
def fixNested : Option (Session × World) :=
  fixParent.bind (fun pw => (Session.session pw.2 pw.1 nameChi fileMain 8 fixT).toOption)

/-- Completion (drop) of the nested content-free child at `fixT2`. -/
def fixNestedDrop : Option (Session × World) :=
  fixNested.bind (fun cw => Session.drop cw.2 cw.1 fixT2 42)

/-- The nested child's parent-buffer reference. -/
def fixNestedSire : Option (Option Nat) := fixNested.map (fun cw => cw.1.sire)

/-- The parent's buffer before the child completes. -/
def fixNestedParentBufBefore : Option (List (List Char)) :=
  fixNested.map (fun cw => cw.2.bufOf 0)

/-- The parent's buffer after the child completes. -/
def fixNestedParentBufAfter : Option (List (List Char)) :=
  fixNestedDrop.map (fun sw => sw.2.bufOf 0)

/-- Number of files on disk before the child completes. -/
def fixNestedDiskBefore : Option Nat := fixNested.map (fun cw => cw.2.disk.length)

/-- Number of files on disk after the child completes. -/
def fixNestedDiskAfter : Option Nat := fixNestedDrop.map (fun sw => sw.2.disk.length)

/-- Fixture message `"one"`. -/
def msgOne : List Char := "one".data

/-- Fixture message `"two"`. -/
def msgTwo : List Char := "two".data

/-- The file the first fixture write opens: hour bucket of `fixT`. -/
def path1 : List Char := "./logs/2026-10-12-05.log".data

/-- First fixture write, at `fixT`. -/
def fixRotW1 : Option World := Logger.write_line fixW nameM msgOne fixT

/-- Second fixture write, at `fixT2` (next day, same hour-of-day). -/
def fixRotW2 : Option World :=
  fixRotW1.bind (fun w => Logger.write_line w nameM msgTwo fixT2)

/-- Disk contents after the two fixture writes. -/
def fixRotDisk : Option (List (List Char × List (List Char))) :=
  fixRotW2.map World.disk

/-- A registry entry whose thresholds are both at the maximum (`Fatal`):
every message below `Fatal` fails both gates. -/
def strictInner : Inner :=
  { wrt_level := .Fatal, log_level := .Fatal, hour := 5, dir := defaultPath,
    proc := processor }

/-- Fixture world holding only the strict (`Fatal`/`Fatal`) entry. -/
def fixWStrict : World :=
  { loggers := [(nameM, strictInner)], files := [], disk := [], console := [],
    bufs := [], nextBuf := 0 }

/-- A session constructed in the strict world. -/
def fixStrictSes : Option (Session × World) :=
  Session.new fixWStrict nameSes nameM fileMain 7 fixT

/-- Console lines after constructing the session in the strict world. -/
def fixStrictConsole : Option Nat := fixStrictSes.map (fun sw => sw.2.console.length)

/-- The new session's buffer after construction in the strict world. -/
def fixStrictBufLen : Option Nat :=
  fixStrictSes.map (fun sw => (sw.2.bufOf sw.1.msgs).length)

/-- An `Error`-level message logged in the strict session (for contrast:
both gates suppress it). -/
def fixStrictLogged : Option (Session × World) :=
  fixStrictSes.bind (fun sw =>
    (Session.log sw.2 sw.1 (.log fixT .Error fileMain 9 nameM (some nameSes) msgOne)).map
      (fun w => (sw.1, w)))

/-- Console lines after the suppressed `Error` message. -/
def fixStrictConsoleAfter : Option Nat :=
  fixStrictLogged.map (fun sw => sw.2.console.length)

/-- Buffer length after the suppressed `Error` message. -/
def fixStrictBufLenAfter : Option Nat :=
  fixStrictLogged.map (fun sw => (sw.2.bufOf sw.1.msgs).length)

/-- A fixture nested session with three buffered lines (box-report path). -/
def fixBoxSes : Session :=
  { died := false, pass := false, name := nameChi, root := nameM, msgs := 1,
    sire := some 0, time := fixT, file := fileMain, line := 8, ease := true }

/-- Three buffered message lines for the box-report fixture. -/
def msgsThree : List (List Char) := [msgOne, msgTwo, msgOne]

/-- Fixture world for the box-report fixture: parent buffer 0, child buffer 1. -/
def fixWBox : World :=
  { loggers := [(nameM, defaultInner 5)], files := [], disk := [], console := [],
    bufs := [(0, []), (1, msgsThree)], nextBuf := 2 }

/-- The box fixture session after completion. -/
def fixBoxDead : Session := { fixBoxSes with died := true }

/-- The box fixture session as an unnested (root) session. -/
def fixRootBox : Session := { fixBoxSes with sire := none }

/-- A fixture timestamp in the next hour-of-day (hour 6) of the same day. -/
def fixT3 : DateTime := ⟨2026, 10, 12, 6, 0, 0, 0, true, 8, 0⟩

/-- An unnested content-free fixture session (buffer: only the start marker). -/
def fixRootEase : Session :=
  { died := false, pass := false, name := nameSes, root := nameM, msgs := 0,
    sire := none, time := fixT, file := fileMain, line := 7, ease := true }

/-- Fixture world for `fixRootEase`: buffer 0 holds one start-marker line. -/
def fixWEase : World :=
  { loggers := [(nameM, defaultInner 5)], files := [], disk := [], console := [],
    bufs := [(0, [msgOne])], nextBuf := 1 }

/-- Fixture strict-constructor name `"svc"` (spec §8's example). -/
def nameSvc : List Char := "svc".data

/-- Fixture directory `"logs/a"`. -/
def dirA : List Char := "logs/a".data

/-! ### Basic state lemmas -/

theorem lookupB_updateB_self {β : Type} (l : List (Nat × β)) (k : Nat) (v : β) :
    lookupB (updateB l k v) k = some v := by
  induction l with
  | nil => simp [updateB, lookupB]
  | cons hd tl ih =>
      by_cases h : hd.1 = k
      · simp [updateB, lookupB, h]
      · simp [updateB, lookupB, h, ih]

theorem lookupB_updateB_ne {β : Type} (l : List (Nat × β)) (k k' : Nat) (v : β)
    (h : k ≠ k') : lookupB (updateB l k' v) k = lookupB l k := by
  have h' : ¬ (k' = k) := fun hh => h hh.symm
  induction l with
  | nil => simp [updateB, lookupB, h']
  | cons hd tl ih =>
      by_cases hk : hd.1 = k'
      · rw [updateB]
        simp only [if_pos hk]
        rw [lookupB, if_neg h', lookupB, hk, if_neg h']
      · by_cases hk2 : hd.1 = k <;> simp [updateB, lookupB, hk, hk2, ih, h]

theorem lookupA_updateA_self {β : Type} (l : List (List Char × β)) (k : List Char) (v : β) :
    lookupA (updateA l k v) k = some v := by
  induction l with
  | nil => simp [updateA, lookupA]
  | cons hd tl ih =>
      by_cases h : hd.1 = k
      · simp [updateA, lookupA, h]
      · simp [updateA, lookupA, h, ih]

theorem bufOf_pushBuf_self (w : World) (i : Nat) (x : List Char) :
    (w.pushBuf i x).bufOf i = w.bufOf i ++ [x] := by
  unfold World.pushBuf World.bufOf
  cases h : lookupB w.bufs i <;> simp [h, lookupB_updateB_self]

theorem bufOf_pushBuf_ne (w : World) (i j : Nat) (x : List Char) (h : i ≠ j) :
    (w.pushBuf j x).bufOf i = w.bufOf i := by
  unfold World.pushBuf World.bufOf
  cases hj : lookupB w.bufs j <;> simp [hj, lookupB_updateB_ne _ _ _ _ h]

theorem bufOf_appendBuf_self (w : World) (i : Nat) (xs : List (List Char)) :
    (w.appendBuf i xs).bufOf i = w.bufOf i ++ xs := by
  unfold World.appendBuf World.bufOf
  cases h : lookupB w.bufs i <;> simp [h, lookupB_updateB_self]

theorem bufOf_appendBuf_ne (w : World) (i j : Nat) (xs : List (List Char)) (h : i ≠ j) :
    (w.appendBuf j xs).bufOf i = w.bufOf i := by
  unfold World.appendBuf World.bufOf
  cases hj : lookupB w.bufs j <;> simp [hj, lookupB_updateB_ne _ _ _ _ h]

/-- `Logger::new` is the identity on a state already holding the entry. -/
theorem Logger.new_of_mem (w : World) (n : List Char) (h : Nat) (inner : Inner)
    (hl : lookupA w.loggers n = some inner) : Logger.new w n h = w := by
  unfold Logger.new
  simp [hl]

/-- After `Logger::new` the entry exists. -/
theorem Logger.new_lookup (w : World) (n : List Char) (h : Nat) :
    ∃ inner, lookupA (Logger.new w n h).loggers n = some inner := by
  unfold Logger.new
  cases hl : lookupA w.loggers n with
  | some inner => exact ⟨inner, hl⟩
  | none => exact ⟨defaultInner h, by simp [lookupA_updateA_self]⟩

/-- `Logger::get_file` on a registered logger: it either rotates (returning
the path under the logger's directory named from the full time tuple) or
returns the cached path with the state unchanged. -/
theorem get_file_spec (w : World) (n : List Char) (now : DateTime) (inner : Inner)
    (hl : lookupA w.loggers n = some inner) :
    (Logger.get_file w n now =
        some (rotPath inner now, w.rotated n inner.dir (rotPath inner now) now.hour)) ∨
    (∃ p, lookupA w.files inner.dir = some p ∧ Logger.get_file w n now = some (p, w)) := by
  simp only [Logger.get_file, hl]
  by_cases hrot : lookupA w.files inner.dir = none ∨
      (get_time_tuple now).2.2.2 ≠ inner.hour
  · left
    rw [if_pos hrot]
    rfl
  · right
    rw [if_neg hrot]
    push_neg at hrot
    obtain ⟨p, hp⟩ := Option.ne_none_iff_exists'.mp hrot.1
    exact ⟨p, hp, by rw [hp]⟩

/-- `Logger::write_line` on a registered logger always succeeds, appends
exactly its message under some path, and touches neither console nor buffers. -/
theorem write_line_spec (w : World) (n : List Char) (msg : List Char)
    (now : DateTime) (inner : Inner) (hl : lookupA w.loggers n = some inner) :
    ∃ path w', Logger.write_line w n msg now = some w' ∧
      w'.disk = appendDisk w.disk path msg ∧
      w'.console = w.console ∧ w'.bufs = w.bufs ∧ w'.nextBuf = w.nextBuf := by
  rcases get_file_spec w n now inner hl with hgf | ⟨p, _, hgf⟩
  · rw [Logger.write_line, hgf]
    exact ⟨_, _, rfl, rfl, rfl, rfl, rfl⟩
  · rw [Logger.write_line, hgf]
    exact ⟨p, _, rfl, rfl, rfl, rfl, rfl⟩

/-- `Logger::write_line` on a registered logger in a well-formed state writes
under that logger's directory. -/
theorem write_line_spec_dir (w : World) (n : List Char) (msg : List Char)
    (now : DateTime) (inner : Inner) (hl : lookupA w.loggers n = some inner)
    (hwf : filesWF w) :
    ∃ fn w', Logger.write_line w n msg now = some w' ∧
      w'.disk = appendDisk w.disk (inner.dir ++ ('/') :: fn) msg ∧
      w'.console = w.console ∧ w'.bufs = w.bufs ∧ w'.nextBuf = w.nextBuf := by
  rcases get_file_spec w n now inner hl with hgf | ⟨p, hp, hgf⟩
  · rw [Logger.write_line, hgf]
    exact ⟨_, _, rfl, rfl, rfl, rfl, rfl⟩
  · obtain ⟨fn, hfn⟩ := hwf _ _ hp
    rw [Logger.write_line, hgf]
    exact ⟨fn, _, rfl, by rw [← hfn], rfl, rfl, rfl⟩

/-- Every successful `dump` returns a session whose `died` flag is set. -/
theorem dump_sets_died (w : World) (s : Session) (e : Int) (now : DateTime)
    (s' : Session) (w' : World) (h : Session.dump w s e now = some (s', w')) :
    s'.died = true := by
  rw [Session.dump] at h
  by_cases hd : s.died = true
  · rw [if_pos hd] at h
    cases h
    exact hd
  · rw [if_neg hd] at h
    split at h
    · cases h
    · split at h
      · split at h
        · cases h
          rfl
        · dsimp only at h
          split at h
          · cases h
          · cases h
            rfl
      · split at h
        · cases h
        · split at h
          · cases h
          · dsimp only at h
            split at h
            · cases h
            · cases h
              rfl

/-- C3: completing (dropping) a session is idempotent: the completion path is
gated by the one-shot `died` flag, so on a session that already completed a
second invocation changes nothing (same session, same world: parent buffers,
files and console untouched), and every successful completion leaves the
session dead. -/
theorem c3_completion_idempotent :
    (∀ (w : World) (s : Session) (cur : DateTime) (e : Int),
      s.died = true → Session.drop w s cur e = some (s, w)) ∧
    (∀ (w : World) (s : Session) (cur : DateTime) (e : Int) (s' : Session) (w' : World),
      Session.drop w s cur e = some (s', w') → s'.died = true) := by
  constructor
  · intro w s cur e hd
    rw [Session.drop]
    have hlog : Session.log w s (.sessionEnd cur e s.file s.line s.root s.name) = some w := by
      rw [Session.log, if_pos hd]
    simp only [hlog]
    rw [Session.dump, if_pos hd]
  · intro w s cur e s' w' h
    rw [Session.drop] at h
    cases hlog : Session.log w s (.sessionEnd cur e s.file s.line s.root s.name) with
    | none => rw [hlog] at h; cases h
    | some w1 => rw [hlog] at h; exact dump_sets_died _ _ _ _ _ _ h

/-- Witness for C3: the dead fixture session re-completed at a later time is a
no-op, state returned unchanged. -/
theorem c3_completion_idempotent_witness :
    Session.drop fixW fixDead fixT2 0 = some (fixDead, fixW) :=
  c3_completion_idempotent.1 fixW fixDead fixT2 0 rfl

/-- C4 counterexample: creating a child on a session whose `died` flag is set
does not fail with `SessionErrorKind::SessionDied` — the source instead
panics via `unreachable!("This should not be happened")`. -/
theorem c4_counterexample :
    fixDeadChild ≠ Except.error (SessFail.err SessionErrorKind.SessionDied) := by
  rw [show fixDeadChild = Except.error (SessFail.panicked panicMsg) from rfl]
  simp

/-- C4 (amended): creating a child on any session whose `died` flag is set
fails immediately — by the `unreachable!` panic, not by returning
`SessionErrorKind::SessionDied`. -/
theorem c4_dead_session_panics (w : World) (s : Session) (n f : List Char)
    (l : Nat) (t : DateTime) (h : s.died = true) :
    Session.session w s n f l t = Except.error (SessFail.panicked panicMsg) := by
  rw [Session.session, if_pos h]
  rfl

/-- Witness for the amended C4 at the dead fixture session. -/
theorem c4_dead_session_panics_witness :
    Session.session fixW fixDead nameSes fileMain 2 fixT =
      Except.error (SessFail.panicked panicMsg) :=
  c4_dead_session_panics fixW fixDead nameSes fileMain 2 fixT rfl

/-- C1 counterexample: a content-free child session nested under a parent
(`sire = some 0`) completes — yet the parent's buffer is unchanged and the
rendered (ease-collapsed) line is written to a file: the `else` branch of
`Session::dump` never consults `sire`, so the block is handed to the File
Manager even though the session has a parent. -/
theorem c1_counterexample :
    fixNestedSire = some (some 0) ∧
    fixNestedParentBufAfter = fixNestedParentBufBefore ∧
    fixNestedDiskBefore = some 0 ∧
    fixNestedDiskAfter = some 1 :=
  ⟨rfl, rfl, rfl, rfl⟩

/-- `Logger::new` never touches the file cache, disk, console or buffers. -/
theorem Logger.new_state (w : World) (n : List Char) (h : Nat) :
    (Logger.new w n h).files = w.files ∧ (Logger.new w n h).disk = w.disk ∧
    (Logger.new w n h).console = w.console ∧ (Logger.new w n h).bufs = w.bufs := by
  unfold Logger.new
  cases lookupA w.loggers n <;> exact ⟨rfl, rfl, rfl, rfl⟩

/-- `join("\n")` of a single line is the line itself. -/
theorem joinNL_single (x : List Char) : joinNL [x] = x := by
  simp [joinNL]

/-- C1 (amended): when a completing session renders the full box report
(ease-on-empty off or more than the two marker lines buffered), a nested
session appends the report to its parent's buffer and writes nothing, and an
unnested one writes the newline-joined report to the file; but the
ease-on-empty collapsed single line is always written to the file — even when
the session has a parent, whose buffer is then left unchanged. -/
theorem c1_amended_routing (w : World) (s : Session) (e : Int) (now : DateTime)
    (msgs : List (List Char)) (hd : s.died = false)
    (hb : lookupB w.bufs s.msgs = some msgs) :
    ((¬ s.ease = true ∨ msgs.length > 2) →
      (∀ sid, s.sire = some sid →
        Session.dump w s e now =
          some ({ s with died := true }, w.appendBuf sid (boxRender s.name e msgs))) ∧
      (s.sire = none →
        ∃ path w', Session.dump w s e now = some ({ s with died := true }, w') ∧
          w'.disk = appendDisk w.disk path (joinNL (boxRender s.name e msgs)) ∧
          w'.bufs = w.bufs ∧ w'.console = w.console)) ∧
    (s.ease = true → msgs.length ≤ 2 →
      ∀ lastL i, msgs.getLast? = some lastL → findFiveSp lastL = some i →
        ∃ path w', Session.dump w s e now = some ({ s with died := true }, w') ∧
          w'.disk = appendDisk w.disk path
            (replaceRange lastL (i + 5) (i + 5 + 1) (s.root ++ (':') :: s.name ++ " - ".data)
              ++ ", Elapsed: ".data ++ intDigs e ++ "us".data) ∧
          w'.bufs = w.bufs ∧ w'.console = w.console) := by
  have hnd : ¬ s.died = true := by simp [hd]
  obtain ⟨innerN, hlN⟩ := Logger.new_lookup w s.root now.hour
  obtain ⟨hfiles, hdisk, hcons, hbufs⟩ := Logger.new_state w s.root now.hour
  constructor
  · intro hbox
    constructor
    · intro sid hsire
      rw [Session.dump, if_neg hnd]
      simp only [hb]
      rw [if_pos hbox, hsire]
    · intro hsire
      rw [Session.dump, if_neg hnd]
      simp only [hb]
      rw [if_pos hbox, hsire]
      obtain ⟨path, w', hwl, hwd, hwc, hwb, _⟩ :=
        write_line_spec (Logger.new w s.root now.hour) s.root
          (joinNL (boxRender s.name e msgs)) now innerN hlN
      dsimp only
      rw [hwl]
      exact ⟨path, w', rfl, by rw [hwd, hdisk], by rw [hwb, hbufs], by rw [hwc, hcons]⟩
  · intro he hlen lastL i hlast hfind
    have hnbox : ¬ (¬ s.ease = true ∨ msgs.length > 2) :=
      not_or.mpr ⟨not_not_intro he, by omega⟩
    rw [Session.dump, if_neg hnd]
    simp only [hb]
    rw [if_neg hnbox]
    simp only [hlast, hfind]
    obtain ⟨path, w', hwl, hwd, hwc, hwb, _⟩ :=
      write_line_spec (Logger.new w s.root now.hour) s.root
        (joinNL [replaceRange lastL (i + 5) (i + 5 + 1)
            (s.root ++ (':') :: s.name ++ " - ".data)
          ++ ", Elapsed: ".data ++ intDigs e ++ "us".data]) now innerN hlN
    rw [hwl]
    refine ⟨path, w', rfl, ?_, by rw [hwb, hbufs], by rw [hwc, hcons]⟩
    rw [hwd, hdisk, joinNL_single]

theorem pushConsole_console (w : World) (l : List Char) :
    (w.pushConsole l).console = w.console ++ [l] := rfl

theorem pushConsole_bufOf (w : World) (l : List Char) (i : Nat) :
    (w.pushConsole l).bufOf i = w.bufOf i := rfl

theorem pushConsole_disk (w : World) (l : List Char) :
    (w.pushConsole l).disk = w.disk := rfl

theorem pushConsole_loggers (w : World) (l : List Char) :
    (w.pushConsole l).loggers = w.loggers := rfl

theorem pushBuf_console (w : World) (i : Nat) (x : List Char) :
    (w.pushBuf i x).console = w.console := rfl

theorem pushBuf_disk (w : World) (i : Nat) (x : List Char) :
    (w.pushBuf i x).disk = w.disk := rfl

theorem pushConsole_bufs (w : World) (l : List Char) :
    (w.pushConsole l).bufs = w.bufs := rfl

/-- C2: dual routing of ordinary (leveled) log calls.  Inside a session the
console line is printed iff `log_level ≤ L` and the buffer line recorded iff
`write_level ≤ L`; on a root-level logger the console line is printed iff
`log_level ≤ L` and the file line written iff `write_level ≤ L`; and the two
gates are independent — all four on/off combinations are reachable. -/
theorem c2_dual_routing :
    (∀ (w : World) (s : Session) (t : DateTime) (lvl : Level) (fl : List Char)
        (ln : Nat) (lg : List Char) (sn : Option (List Char)) (msg : List Char)
        (inner : Inner),
      s.died = false → s.pass = false → lookupA w.loggers s.root = some inner →
      ∃ w', Session.log w s (.log t lvl fl ln lg sn msg) = some w' ∧
        w'.console = w.console ++
          (if inner.log_level ≤ lvl
            then [(inner.proc (.log t lvl fl ln lg sn msg)).1] else []) ∧
        w'.bufOf s.msgs = w.bufOf s.msgs ++
          (if inner.wrt_level ≤ lvl
            then [(inner.proc (.log t lvl fl ln lg sn msg)).2] else []) ∧
        w'.disk = w.disk) ∧
    (∀ (w : World) (n : List Char) (t : DateTime) (lvl : Level) (fl : List Char)
        (ln : Nat) (lg : List Char) (sn : Option (List Char)) (msg : List Char)
        (inner : Inner) (now : DateTime),
      lookupA w.loggers n = some inner →
      ∃ w', Logger.log w n (.log t lvl fl ln lg sn msg) now = some w' ∧
        w'.console = w.console ++
          (if inner.log_level ≤ lvl
            then [(inner.proc (.log t lvl fl ln lg sn msg)).1] else []) ∧
        (inner.wrt_level ≤ lvl →
          ∃ path, w'.disk = appendDisk w.disk path
            (inner.proc (.log t lvl fl ln lg sn msg)).2) ∧
        (¬ inner.wrt_level ≤ lvl → w'.disk = w.disk) ∧
        w'.bufs = w.bufs) ∧
    (∀ b1 b2 : Bool, ∃ ll wl lvl : Level,
      ((ll ≤ lvl) ↔ b1 = true) ∧ ((wl ≤ lvl) ↔ b2 = true)) := by
  refine ⟨?_, ?_, ?_⟩
  · intro w s t lvl fl ln lg sn msg inner hd hp hl
    have hnd : ¬ s.died = true := by simp [hd]
    have hnp : ¬ s.pass = true := by simp [hp]
    rw [Session.log, if_neg hnd, if_neg hnp]
    simp only [hl]
    by_cases h1 : inner.log_level ≤ lvl <;> by_cases h2 : inner.wrt_level ≤ lvl <;>
      simp only [Context.get_level, if_pos, if_neg, h1, h2, if_true, if_false,
        ite_true, ite_false, eq_self_iff_true] <;>
      exact ⟨_, rfl, by simp [bufOf_pushBuf_self, pushConsole_console,
        pushConsole_bufOf, pushBuf_console, pushBuf_disk, pushConsole_disk]⟩
  · intro w n t lvl fl ln lg sn msg inner now hl
    rw [Logger.log]
    simp only [hl, Context.get_level]
    by_cases h2 : inner.wrt_level ≤ lvl
    · rw [if_pos h2]
      have hl1 : lookupA (if inner.log_level ≤ lvl
          then w.pushConsole (inner.proc (.log t lvl fl ln lg sn msg)).1 else w).loggers n =
          some inner := by
        by_cases h1 : inner.log_level ≤ lvl <;> simp [h1, pushConsole_loggers, hl]
      obtain ⟨path, w', hwl, hwd, hwc, hwb, _⟩ := write_line_spec _ n
        (inner.proc (.log t lvl fl ln lg sn msg)).2 now inner hl1
      rw [hwl]
      refine ⟨w', rfl, ?_, fun _ => ⟨path, ?_⟩, fun hc => absurd h2 hc, ?_⟩
      · rw [hwc]
        by_cases h1 : inner.log_level ≤ lvl <;> simp [h1, pushConsole_console]
      · rw [hwd]
        by_cases h1 : inner.log_level ≤ lvl <;> simp [h1, pushConsole_disk]
      · rw [hwb]
        by_cases h1 : inner.log_level ≤ lvl <;> simp [h1, pushConsole_bufs]
    · rw [if_neg h2]
      refine ⟨_, rfl, ?_, fun hc => absurd hc h2, fun _ => ?_, ?_⟩
      · by_cases h1 : inner.log_level ≤ lvl <;> simp [h1, pushConsole_console]
      · by_cases h1 : inner.log_level ≤ lvl <;> simp [h1, pushConsole_disk]
      · by_cases h1 : inner.log_level ≤ lvl <;> simp [h1, pushConsole_bufs]
  · intro b1 b2
    cases b1 <;> cases b2
    · exact ⟨.Fatal, .Fatal, .Debug, by decide, by decide⟩
    · exact ⟨.Fatal, .Debug, .Debug, by decide, by decide⟩
    · exact ⟨.Debug, .Fatal, .Debug, by decide, by decide⟩
    · exact ⟨.Debug, .Debug, .Debug, by decide, by decide⟩

/-- Witness for C2, session part: an `Info` message in the default-threshold
fixture (log `Info`, write `Verbose`) passes both gates. -/
theorem c2_dual_routing_witness :
    ∃ w', Session.log fixWBox fixBoxSes (.log fixT .Info fileMain 9 nameM (some nameChi) msgOne) = some w' ∧
      w'.console = fixWBox.console ++
        (if (defaultInner 5).log_level ≤ .Info
          then [((defaultInner 5).proc (.log fixT .Info fileMain 9 nameM (some nameChi) msgOne)).1] else []) ∧
      w'.bufOf fixBoxSes.msgs = fixWBox.bufOf fixBoxSes.msgs ++
        (if (defaultInner 5).wrt_level ≤ .Info
          then [((defaultInner 5).proc (.log fixT .Info fileMain 9 nameM (some nameChi) msgOne)).2] else []) ∧
      w'.disk = fixWBox.disk :=
  c2_dual_routing.1 fixWBox fixBoxSes fixT .Info fileMain 9 nameM (some nameChi)
    msgOne (defaultInner 5) rfl rfl rfl

/-- C8 counterexample: with both thresholds at the maximum (`Fatal`) — which
suppresses every ordinary sub-`Fatal` message, as the `Error`-level contrast
shows — constructing a session still prints one console line and buffers the
start marker: the `SessionStart` emission is not subject to the gates. -/
theorem c8_counterexample :
    fixStrictConsole = some 1 ∧ fixStrictBufLen = some 1 ∧
    fixStrictConsoleAfter = some 1 ∧ fixStrictBufLenAfter = some 1 :=
  ⟨rfl, rfl, rfl, rfl⟩

/-- C8 (amended): constructing a session immediately emits a `SessionStart`
context that is printed to the console and appended to the session's fresh
buffer unconditionally — `SessionStart` carries no level, so neither the
`log_level` nor the `write_level` gate applies. -/
theorem c8_start_unconditional (w : World) (name logger f : List Char) (l : Nat)
    (t : DateTime) (inner : Inner) (hl : lookupA w.loggers logger = some inner) :
    ∃ s w', Session.new w name logger f l t = some (s, w') ∧
      s.msgs = w.nextBuf ∧ s.sire = none ∧ s.name = name ∧ s.root = logger ∧
      w'.console = w.console ++ [(inner.proc (.sessionStart t f l logger name)).1] ∧
      w'.bufOf s.msgs = [(inner.proc (.sessionStart t f l logger name)).2] ∧
      w'.disk = w.disk := by
  simp only [Session.new, Session.log, hl, Context.get_level]
  refine ⟨_, _, rfl, rfl, rfl, rfl, rfl, rfl, ?_, rfl⟩
  rw [bufOf_pushBuf_self, pushConsole_bufOf]
  dsimp only [World.bufOf]
  rw [lookupB_updateB_self]
  rfl

/-- Witness for the amended C8, at the strict (`Fatal`/`Fatal`) fixture. -/
theorem c8_start_unconditional_witness :
    ∃ s w', Session.new fixWStrict nameSes nameM fileMain 7 fixT = some (s, w') ∧
      s.msgs = fixWStrict.nextBuf ∧ s.sire = none ∧ s.name = nameSes ∧ s.root = nameM ∧
      w'.console = fixWStrict.console ++
        [(strictInner.proc (.sessionStart fixT fileMain 7 nameM nameSes)).1] ∧
      w'.bufOf s.msgs = [(strictInner.proc (.sessionStart fixT fileMain 7 nameM nameSes)).2] ∧
      w'.disk = fixWStrict.disk :=
  c8_start_unconditional fixWStrict nameSes nameM fileMain 7 fixT strictInner rfl

/-- C10: under the default processor, the `SessionStart` emitted by a parent
session's `session(name)` call carries the *parent's* name in the rendered
`root:session` identity (the new child is named `n`, yet the console line
shows `root:parent`), whereas a session created directly from a logger emits
a start line carrying its own name. -/
theorem c10_start_identity :
    (∀ (w : World) (s : Session) (n f : List Char) (l : Nat) (t : DateTime)
        (inner : Inner),
      s.died = false → lookupA w.loggers s.root = some inner →
      inner.proc = processor →
      ∃ child w', Session.session w s n f l t = .ok (child, w') ∧
        child.name = n ∧
        w'.console = w.console ++
          [t.rfc3339 ++ "     ".data ++ (s.root ++ (':') :: s.name) ++ " - ".data
            ++ (f ++ (':') :: natDigs l) ++ " - Session start".data]) ∧
    (∀ (w : World) (name logger f : List Char) (l : Nat) (t : DateTime)
        (inner : Inner),
      lookupA w.loggers logger = some inner → inner.proc = processor →
      ∃ s w', Session.new w name logger f l t = some (s, w') ∧
        s.name = name ∧
        w'.console = w.console ++
          [t.rfc3339 ++ "     ".data ++ (logger ++ (':') :: name) ++ " - ".data
            ++ (f ++ (':') :: natDigs l) ++ " - Session start".data]) := by
  constructor
  · intro w s n f l t inner hd hl hproc
    have hnd : ¬ s.died = true := by simp [hd]
    rw [Session.session, if_neg hnd]
    simp only [Session.log, hl, Context.get_level]
    refine ⟨_, _, rfl, rfl, ?_⟩
    rw [hproc]
    simp [processor, Context.get_name, Context.get_session, Context.get_logger,
      Context.get_time_str, Context.get_time, Context.get_location_str,
      Context.get_file, Context.get_line, World.pushConsole, World.pushBuf]
  · intro w name logger f l t inner hl hproc
    simp only [Session.new, Session.log, hl, Context.get_level]
    refine ⟨_, _, rfl, rfl, ?_⟩
    rw [hproc]
    simp [processor, Context.get_name, Context.get_session, Context.get_logger,
      Context.get_time_str, Context.get_time, Context.get_location_str,
      Context.get_file, Context.get_line, World.pushConsole, World.pushBuf]

/-- Witness for C10, first part: a child created under the box fixture parent
(whose name is `chi`) logs a start line showing `m:chi` even though the child
itself is named `ses`. -/
theorem c10_start_identity_witness :
    ∃ child w', Session.session fixWBox fixBoxSes nameSes fileMain 3 fixT =
        Except.ok (child, w') ∧
      child.name = nameSes ∧
      w'.console = fixWBox.console ++
        [fixT.rfc3339 ++ "     ".data ++ (nameM ++ (':') :: nameChi) ++ " - ".data
          ++ (fileMain ++ (':') :: natDigs 3) ++ " - Session start".data] :=
  c10_start_identity.1 fixWBox fixBoxSes nameSes fileMain 3 fixT (defaultInner 5)
    rfl rfl rfl

/-- C9: the strict constructor (modelled from the spec, absent from src/)
fails with `DifferentLevel` / `DifferentDirectory` when an entry exists and
the requested options disagree with the stored ones, fails with
`FailedToCreateFolder` when directory creation fails on first creation, and
otherwise returns the entry; the lenient `Logger::new` (embedded from the
source) never errors and leaves an existing entry's stored options unchanged. -/
theorem c9_strict_and_lenient :
    (∀ (w : World) (n : List Char) (lvl : Level) (dir : List Char) (ok : Bool)
        (hr : Nat) (inner : Inner),
      lookupA w.loggers n = some inner → inner.log_level ≠ lvl →
      Logger.with_options w n lvl dir ok hr = .error .DifferentLevel) ∧
    (∀ (w : World) (n : List Char) (lvl : Level) (dir : List Char) (ok : Bool)
        (hr : Nat) (inner : Inner),
      lookupA w.loggers n = some inner → inner.log_level = lvl → inner.dir ≠ dir →
      Logger.with_options w n lvl dir ok hr = .error .DifferentDirectory) ∧
    (∀ (w : World) (n : List Char) (lvl : Level) (dir : List Char) (hr : Nat),
      lookupA w.loggers n = none →
      Logger.with_options w n lvl dir false hr = .error .FailedToCreateFolder) ∧
    (∀ (w : World) (n : List Char) (lvl : Level) (dir : List Char) (ok : Bool)
        (hr : Nat) (inner : Inner),
      lookupA w.loggers n = some inner → inner.log_level = lvl → inner.dir = dir →
      Logger.with_options w n lvl dir ok hr = .ok w) ∧
    (∀ (w : World) (n : List Char) (lvl : Level) (dir : List Char) (hr : Nat),
      lookupA w.loggers n = none →
      ∃ w', Logger.with_options w n lvl dir true hr = .ok w' ∧
        ∃ inn, lookupA w'.loggers n = some inn ∧ inn.log_level = lvl ∧
          inn.dir = dir) ∧
    (∀ (w : World) (n : List Char) (hr : Nat) (inner : Inner),
      lookupA w.loggers n = some inner → Logger.new w n hr = w) := by
  refine ⟨?_, ?_, ?_, ?_, ?_, ?_⟩
  · intro w n lvl dir ok hr inner hl hne
    rw [Logger.with_options]
    simp only [hl]
    rw [if_pos hne]
  · intro w n lvl dir ok hr inner hl heq hne
    rw [Logger.with_options]
    simp only [hl]
    rw [if_neg (not_not_intro heq), if_pos hne]
  · intro w n lvl dir hr hl
    rw [Logger.with_options]
    simp only [hl]
    rfl
  · intro w n lvl dir ok hr inner hl heq hdir
    rw [Logger.with_options]
    simp only [hl]
    rw [if_neg (not_not_intro heq), if_neg (not_not_intro hdir)]
  · intro w n lvl dir hr hl
    rw [Logger.with_options]
    simp only [hl]
    exact ⟨_, rfl, _, by rw [lookupA_updateA_self], rfl, rfl⟩
  · intro w n hr inner hl
    exact Logger.new_of_mem w n hr inner hl

/-- Witness for C9: spec §8's scenario — create `("svc", Info, "logs/a")`,
then the strict path at `Debug` fails with the different-level error while
the lenient path returns the state unchanged. -/
theorem c9_strict_and_lenient_witness :
    ∃ w1, Logger.with_options World.init nameSvc .Info dirA true 5 = .ok w1 ∧
      Logger.with_options w1 nameSvc .Debug dirA true 5 = .error .DifferentLevel ∧
      Logger.new w1 nameSvc 5 = w1 := by
  obtain ⟨w1, hok, inn, hinn, hlvl, _⟩ :=
    c9_strict_and_lenient.2.2.2.2.1 World.init nameSvc .Info dirA 5 rfl
  refine ⟨w1, hok, ?_, ?_⟩
  · exact c9_strict_and_lenient.1 w1 nameSvc .Debug dirA true 5 inn hinn
      (by rw [hlvl]; decide)
  · exact c9_strict_and_lenient.2.2.2.2.2 w1 nameSvc 5 inn hinn

/-- A newline-free string splits into itself. -/
theorem splitNL_no_nl (m : List Char) (h : ('\n') ∉ m) : splitNL m = [m] := by
  induction m with
  | nil => rfl
  | cons c cs ih =>
      have hc : ¬ c = ('\n') := fun hh => h (hh ▸ List.mem_cons_self _ _)
      rw [splitNL, ih (fun hm => h (List.mem_cons_of_mem _ hm))]
      simp [hc]

/-- Rust `lines()` of a nonempty newline-free string is that one line. -/
theorem linesOf_single (m : List Char) (hne : m ≠ []) (h : ('\n') ∉ m) :
    linesOf m = [m] := by
  rw [linesOf, splitNL_no_nl m h]
  simp [hne]

theorem flatten_map_singleton {α β : Type} (f : α → β) (l : List α) :
    (l.map (fun a => [f a])).flatten = l.map f := by
  induction l <;> simp [*]

/-- C7: an unnested session whose buffer holds more than the two marker lines
(at least one real message), each buffered message a single nonempty line,
dumps a block written in one batch whose first and last lines are the `┏`/`┗`
border lines of equal length and whose line count is `5 + message_count`
(message_count counting every buffered line: the start marker, the real
messages, and the end marker). -/
theorem c7_box_shape (w : World) (s : Session) (e : Int) (now : DateTime)
    (msgs : List (List Char)) (hd : s.died = false) (hsire : s.sire = none)
    (hb : lookupB w.bufs s.msgs = some msgs) (hlen : msgs.length > 2)
    (hone : ∀ m ∈ msgs, m ≠ [] ∧ ('\n') ∉ m) :
    ∃ w' path,
      Session.dump w s e now = some ({ s with died := true }, w') ∧
      w'.disk = appendDisk w.disk path (joinNL (boxRender s.name e msgs)) ∧
      (boxRender s.name e msgs).length = 5 + msgs.length ∧
      (boxRender s.name e msgs).head? = some borderTop ∧
      (boxRender s.name e msgs).getLast? = some borderBot ∧
      borderTop.length = borderBot.length ∧
      borderTop.head? = some ('┏') ∧ borderBot.head? = some ('┗') := by
  have hnd : ¬ s.died = true := by simp [hd]
  obtain ⟨innerN, hlN⟩ := Logger.new_lookup w s.root now.hour
  obtain ⟨hfiles, hdisk, hcons, hbufs⟩ := Logger.new_state w s.root now.hour
  have hmid : msgs.map (fun m => (linesOf m).map dumpLine) =
      msgs.map (fun m => [dumpLine m]) :=
    List.map_congr_left (fun m hm => by
      rw [linesOf_single m (hone m hm).1 (hone m hm).2]
      rfl)
  rw [Session.dump, if_neg hnd]
  simp only [hb]
  rw [if_pos (Or.inr hlen), hsire]
  obtain ⟨path, w', hwl, hwd, hwc, hwb, _⟩ :=
    write_line_spec (Logger.new w s.root now.hour) s.root
      (joinNL (boxRender s.name e msgs)) now innerN hlN
  rw [hwl]
  refine ⟨w', path, rfl, by rw [hwd, hdisk], ?_, ?_, ?_, by decide, rfl, rfl⟩
  · rw [boxRender, hmid, flatten_map_singleton]
    simp
    omega
  · rw [boxRender]
    rfl
  · rw [boxRender]
    exact List.getLast?_concat _

/-- Witness for C7 at the unnested box fixture (three buffered lines). -/
theorem c7_box_shape_witness :
    ∃ w' path,
      Session.dump fixWBox fixRootBox 7 fixT = some ({ fixRootBox with died := true }, w') ∧
      w'.disk = appendDisk fixWBox.disk path (joinNL (boxRender nameChi 7 msgsThree)) ∧
      (boxRender nameChi 7 msgsThree).length = 5 + msgsThree.length ∧
      (boxRender nameChi 7 msgsThree).head? = some borderTop ∧
      (boxRender nameChi 7 msgsThree).getLast? = some borderBot ∧
      borderTop.length = borderBot.length ∧
      borderTop.head? = some ('┏') ∧ borderBot.head? = some ('┗') :=
  c7_box_shape fixWBox fixRootBox 7 fixT msgsThree rfl rfl rfl (by decide) (by decide)

/-- C6 counterexample: two writes 24 hours apart — distinct
`(year, month, day, hour)` buckets whose `hour` component coincides — land in
the *same* file (the one named for the first bucket), because the rotation
check compares only the hour-of-day. -/
theorem c6_counterexample :
    get_time_tuple fixT ≠ get_time_tuple fixT2 ∧
    fixRotDisk = some [(path1, [msgOne, msgTwo])] :=
  ⟨by decide, rfl⟩

theorem padNat2_len_lt24 : ∀ h < 24, (padNat 2 h).length = 2 := by decide

theorem padNat2_inj_lt24 : ∀ a < 24, ∀ b < 24, padNat 2 a = padNat 2 b → a = b := by
  decide

/-- `get_file_name` split so that the hour field and the `.log` suffix form
the tail of the name. -/
theorem get_file_name_split (y m d h : Nat) :
    get_file_name y m d h =
      (padNat 4 y ++ ('-') :: padNat 2 m ++ ('-') :: padNat 2 d ++ [('-')]) ++
        (padNat 2 h ++ ".log".data) := by
  simp [get_file_name, List.append_assoc]

/-- Hour fields below 24 are recoverable from the file name: different hours
give different names, whatever the date fields are. -/
theorem get_file_name_hour_inj (y1 m1 d1 h1 y2 m2 d2 h2 : Nat)
    (hb1 : h1 < 24) (hb2 : h2 < 24) (hne : h1 ≠ h2) :
    get_file_name y1 m1 d1 h1 ≠ get_file_name y2 m2 d2 h2 := by
  intro hEq
  rw [get_file_name_split, get_file_name_split] at hEq
  have hlen : (padNat 2 h1 ++ ".log".data).length = (padNat 2 h2 ++ ".log".data).length := by
    simp [padNat2_len_lt24 h1 hb1, padNat2_len_lt24 h2 hb2]
  have h2eq : padNat 2 h1 ++ ".log".data = padNat 2 h2 ++ ".log".data :=
    (List.append_inj' hEq hlen).2
  have : padNat 2 h1 = padNat 2 h2 :=
    (List.append_inj h2eq (by simp [padNat2_len_lt24 h1 hb1, padNat2_len_lt24 h2 hb2])).1
  exact hne (padNat2_inj_lt24 h1 hb1 h2 hb2 this)

/-- The stored entry after `setHour`. -/
theorem lookupA_setHour_self (l : List (List Char × Inner)) (n : List Char) (h : Nat) :
    lookupA (setHour l n h) n = (lookupA l n).map (fun i => { i with hour := h }) := by
  induction l with
  | nil => rfl
  | cons hd tl ih => by_cases hk : hd.1 = n <;> simp [setHour, lookupA, hk, ih]

/-- C6 (amended): the cached handle for a directory is replaced — directory
ensured, a new file opened whose name is derived from the full
`(year, month, day, hour)` tuple — exactly when no handle exists yet or the
entry's cached hour differs from the current wall-clock *hour-of-day*; the
file name is deterministic in the tuple and injective in the hour field, so
two consecutive writes whose hours-of-day differ go to distinct files, each
named for its own bucket — but buckets that differ only in the date (same
hour-of-day) do not trigger rotation and share the old file. -/
theorem c6_amended_rotation :
    (∀ (w : World) (n : List Char) (now : DateTime) (inner : Inner),
      lookupA w.loggers n = some inner →
      ((lookupA w.files inner.dir = none ∨ now.hour ≠ inner.hour) →
        Logger.get_file w n now =
          some (rotPath inner now, w.rotated n inner.dir (rotPath inner now) now.hour)) ∧
      (∀ p, lookupA w.files inner.dir = some p → now.hour = inner.hour →
        Logger.get_file w n now = some (p, w))) ∧
    (∀ (w : World) (n : List Char) (inner : Inner) (msgA msgB : List Char)
        (tA tB : DateTime),
      lookupA w.loggers n = some inner → lookupA w.files inner.dir = none →
      tA.hour < 24 → tB.hour < 24 → tB.hour ≠ tA.hour →
      ∃ w1 w2, Logger.write_line w n msgA tA = some w1 ∧
        Logger.write_line w1 n msgB tB = some w2 ∧
        w2.disk = appendDisk (appendDisk w.disk (rotPath inner tA) msgA)
          (rotPath inner tB) msgB ∧
        rotPath inner tA ≠ rotPath inner tB) := by
  have main : ∀ (w : World) (n : List Char) (now : DateTime) (inner : Inner),
      lookupA w.loggers n = some inner →
      ((lookupA w.files inner.dir = none ∨ now.hour ≠ inner.hour) →
        Logger.get_file w n now =
          some (rotPath inner now, w.rotated n inner.dir (rotPath inner now) now.hour)) ∧
      (∀ p, lookupA w.files inner.dir = some p → now.hour = inner.hour →
        Logger.get_file w n now = some (p, w)) := by
    intro w n now inner hl
    constructor
    · intro hrot
      have hrot' : lookupA w.files inner.dir = none ∨
          (get_time_tuple now).2.2.2 ≠ inner.hour := hrot
      simp only [Logger.get_file, hl]
      rw [if_pos hrot']
      rfl
    · intro p hp hhour
      have hrot' : ¬ (lookupA w.files inner.dir = none ∨
          (get_time_tuple now).2.2.2 ≠ inner.hour) := by
        rw [not_or]
        exact ⟨by simp [hp], not_not_intro hhour⟩
      simp only [Logger.get_file, hl]
      rw [if_neg hrot', hp]
  refine ⟨main, ?_⟩
  intro w n inner msgA msgB tA tB hl hnofile hbA hbB hne
  have hgf1 := (main w n tA inner hl).1 (Or.inl hnofile)
  have hw1 : Logger.write_line w n msgA tA =
      some ((w.rotated n inner.dir (rotPath inner tA) tA.hour).addDisk
        (rotPath inner tA) msgA) := by
    simp only [Logger.write_line, hgf1, World.addDisk]
  have hl1 : lookupA ((w.rotated n inner.dir (rotPath inner tA) tA.hour).addDisk
      (rotPath inner tA) msgA).loggers n = some { inner with hour := tA.hour } := by
    show lookupA (setHour w.loggers n tA.hour) n = _
    rw [lookupA_setHour_self, hl]
    rfl
  have hgf2 := (main _ n tB { inner with hour := tA.hour } hl1).1 (Or.inr hne)
  have hw2 : Logger.write_line ((w.rotated n inner.dir (rotPath inner tA) tA.hour).addDisk
        (rotPath inner tA) msgA) n msgB tB =
      some ((((w.rotated n inner.dir (rotPath inner tA) tA.hour).addDisk
          (rotPath inner tA) msgA).rotated n inner.dir (rotPath inner tB) tB.hour).addDisk
        (rotPath inner tB) msgB) := by
    rw [Logger.write_line, hgf2]
    rfl
  refine ⟨_, _, hw1, hw2, rfl, ?_⟩
  intro hEq
  have h3 := List.append_cancel_left hEq
  have h4 : get_file_name tA.year tA.month tA.day tA.hour =
      get_file_name tB.year tB.month tB.day tB.hour := by
    injection h3
  exact get_file_name_hour_inj tA.year tA.month tA.day tA.hour
    tB.year tB.month tB.day tB.hour hbA hbB (fun hh => hne hh.symm) h4

/-- Witness for the amended C6: writes at hours 5 and 6 of the same fixture
day land in two distinct files, each named for its own hour. -/
theorem c6_amended_rotation_witness :
    ∃ w1 w2, Logger.write_line fixW nameM msgOne fixT = some w1 ∧
      Logger.write_line w1 nameM msgTwo fixT3 = some w2 ∧
      w2.disk = appendDisk (appendDisk fixW.disk (rotPath (defaultInner 5) fixT) msgOne)
        (rotPath (defaultInner 5) fixT3) msgTwo ∧
      rotPath (defaultInner 5) fixT ≠ rotPath (defaultInner 5) fixT3 :=
  c6_amended_rotation.2 fixW nameM (defaultInner 5) msgOne msgTwo fixT fixT3
    rfl rfl (by decide) (by decide) (by decide)

/-! ### Character-set lemmas for the rendered strings -/

theorem plainChar_cleanChar {c : Char} (h : plainChar c) : cleanChar c :=
  ⟨h.2.1, h.2.2⟩

theorem plainStr_cleanStr {l : List Char} (h : plainStr l) : cleanStr l :=
  fun c hc => plainChar_cleanChar (h c hc)

theorem plainStr_append {a b : List Char} (ha : plainStr a) (hb : plainStr b) :
    plainStr (a ++ b) := by
  intro c hc
  rcases List.mem_append.mp hc with h | h
  · exact ha c h
  · exact hb c h

theorem plainStr_cons {c : Char} {l : List Char} (hc : plainChar c)
    (hl : plainStr l) : plainStr (c :: l) := by
  intro x hx
  rcases List.mem_cons.mp hx with h | h
  · exact h ▸ hc
  · exact hl x h

theorem cleanStr_append {a b : List Char} (ha : cleanStr a) (hb : cleanStr b) :
    cleanStr (a ++ b) := by
  intro c hc
  rcases List.mem_append.mp hc with h | h
  · exact ha c h
  · exact hb c h

theorem cleanStr_cons {c : Char} {l : List Char} (hc : cleanChar c)
    (hl : cleanStr l) : cleanStr (c :: l) := by
  intro x hx
  rcases List.mem_cons.mp hx with h | h
  · exact h ▸ hc
  · exact hl x h

theorem cleanStr_tail {l : List Char} (h : cleanStr l) : cleanStr l.tail :=
  fun c hc => h c (List.mem_of_mem_tail hc)

theorem digChar_plain (n : Nat) : plainChar (digChar n) := by
  rw [digChar]
  set k := n % 10 with hk
  have h : k < 10 := hk ▸ Nat.mod_lt _ (by norm_num)
  interval_cases k <;> decide

theorem natDigsF_plain (fuel n : Nat) : plainStr (natDigsF fuel n) := by
  induction fuel generalizing n with
  | zero => intro c hc; cases hc
  | succ f ih =>
      rw [natDigsF]
      by_cases h : n < 10
      · rw [if_pos h]
        exact plainStr_cons (digChar_plain n) (fun c hc => nomatch hc)
      · rw [if_neg h]
        exact plainStr_append (ih (n / 10))
          (plainStr_cons (digChar_plain n) (fun c hc => nomatch hc))

theorem natDigs_plain (n : Nat) : plainStr (natDigs n) := natDigsF_plain _ _

theorem padNat_plain (w n : Nat) : plainStr (padNat w n) := by
  refine plainStr_append ?_ (natDigs_plain n)
  intro c hc
  rw [List.eq_of_mem_replicate hc]
  decide

theorem intDigs_plain (i : Int) : plainStr (intDigs i) := by
  rw [intDigs]
  by_cases h : i < 0
  · rw [if_pos h]
    exact plainStr_cons (by decide) (natDigs_plain _)
  · rw [if_neg h]
    exact natDigs_plain _

theorem rfc3339_plain (t : DateTime) : plainStr t.rfc3339 := by
  rw [DateTime.rfc3339]
  simp only [List.append_assoc, List.cons_append]
  refine plainStr_append (padNat_plain _ _) (plainStr_cons (by decide) ?_)
  refine plainStr_append (padNat_plain _ _) (plainStr_cons (by decide) ?_)
  refine plainStr_append (padNat_plain _ _) (plainStr_cons (by decide) ?_)
  refine plainStr_append (padNat_plain _ _) (plainStr_cons (by decide) ?_)
  refine plainStr_append (padNat_plain _ _) (plainStr_cons (by decide) ?_)
  refine plainStr_append (padNat_plain _ _) (plainStr_cons (by decide) ?_)
  refine plainStr_append (padNat_plain _ _) ?_
  have hrest : plainStr (padNat 2 t.tzH ++ (':') :: padNat 2 t.tzM) :=
    plainStr_append (padNat_plain _ _) (plainStr_cons (by decide) (padNat_plain _ _))
  by_cases hz : t.tzH = 0 ∧ t.tzM = 0
  · rw [if_pos hz]
    exact plainStr_cons (by decide) (fun c hc => nomatch hc)
  · rw [if_neg hz]
    cases htz : t.tzPlus
    · exact plainStr_cons (by decide) hrest
    · exact plainStr_cons (by decide) hrest

theorem plainStr_no_space {l : List Char} (h : plainStr l) :
    ∀ c ∈ l, c ≠ (' ') := by
  intro c hc heq
  exact (h c hc).1 (by rw [heq]; decide)

theorem cleanStr_no_border {l : List Char} (h : cleanStr l) :
    ∀ c ∈ l, c ∉ borderChars := by
  intro c hc hmem
  have h2 := (h c hc).2
  rcases List.mem_cons.mp hmem with rfl | hmem
  · exact absurd h2 (by decide)
  rcases List.mem_cons.mp hmem with rfl | hmem
  · exact absurd h2 (by decide)
  rcases List.mem_cons.mp hmem with rfl | hmem
  · exact absurd h2 (by decide)
  rcases List.mem_cons.mp hmem with rfl | hmem
  · exact absurd h2 (by decide)
  cases hmem

theorem cleanStr_no_newline {l : List Char} (h : cleanStr l) : ('\n') ∉ l := by
  intro hmem
  exact (h _ hmem).1 (by decide)

theorem pushBuf_loggers (w : World) (i : Nat) (x : List Char) :
    (w.pushBuf i x).loggers = w.loggers := rfl

theorem pushBuf_files (w : World) (i : Nat) (x : List Char) :
    (w.pushBuf i x).files = w.files := rfl

theorem pushConsole_files (w : World) (l : List Char) :
    (w.pushConsole l).files = w.files := rfl

/-- Pushing onto a buffer known to hold `ms` leaves `ms ++ [x]` there. -/
theorem lookupB_pushBuf_self (w : World) (i : Nat) (x : List Char)
    (ms : List (List Char)) (h : lookupB w.bufs i = some ms) :
    lookupB (w.pushBuf i x).bufs i = some (ms ++ [x]) := by
  rw [World.pushBuf]
  simp only [h]
  exact lookupB_updateB_self _ _ _

/-- `find("     ")` on a string whose prefix `a` is space-free locates the
separator right after `a`, whatever follows it. -/
theorem findFiveSp_append (a b : List Char) (ha : ∀ c ∈ a, c ≠ (' ')) :
    findFiveSp (a ++ (List.replicate 5 (' ') ++ b)) = some a.length := by
  induction a with
  | nil =>
      rw [List.nil_append]
      rw [show List.replicate 5 (' ') ++ b = (' ') :: (List.replicate 4 (' ') ++ b)
        from rfl]
      rw [findFiveSp]
      rw [if_pos]
      · rfl
      · rw [show (' ') :: (List.replicate 4 (' ') ++ b) =
            List.replicate 5 (' ') ++ b from rfl]
        rw [show (5 : Nat) = (List.replicate 5 (' ')).length by simp]
        exact List.take_left _ _
  | cons c a' ih =>
      rw [List.cons_append, findFiveSp]
      have hcond : ¬ (List.take 5 (c :: (a' ++ (List.replicate 5 (' ') ++ b))) =
          List.replicate 5 (' ')) := by
        intro h
        have hc : c = (' ') := by
          have := congrArg List.head? h
          simpa using this
        exact ha c (List.mem_cons_self _ _) hc
      rw [if_neg hcond, ih (fun x hx => ha x (List.mem_cons_of_mem _ hx))]
      rfl

/-- `replace_range` of the single character right after a known prefix. -/
theorem replaceRange_at (a b r : List Char) (x : Char) :
    replaceRange (a ++ x :: b) a.length (a.length + 1) r = a ++ r ++ b := by
  rw [replaceRange]
  have h1 : (a ++ x :: b).take a.length = a := List.take_left _ _
  have h2 : (a ++ x :: b).drop (a.length + 1) = b := by
    rw [show a ++ x :: b = (a ++ [x]) ++ b by simp]
    rw [show a.length + 1 = (a ++ [x]).length by simp]
    exact List.drop_left _ _
  rw [h1, h2]

/-- `Session::dump` on the ease-on-empty path (exactly the two marker lines
buffered): the last buffered line is spliced — the character after the first
five-space run replaced by `"{root}:{name} - "`, the elapsed suffix appended —
and written under the root logger's directory; console and buffers are left
alone. -/
theorem dump_ease_spec (w : World) (s : Session) (e : Int) (now : DateTime)
    (inner : Inner) (l0 lastL : List Char) (i : Nat)
    (hd : s.died = false) (he : s.ease = true)
    (hl : lookupA w.loggers s.root = some inner) (hwf : filesWF w)
    (hb : lookupB w.bufs s.msgs = some [l0, lastL])
    (hfind : findFiveSp lastL = some i) :
    ∃ w' fn,
      Session.dump w s e now = some ({ s with died := true }, w') ∧
      w'.disk = appendDisk w.disk (inner.dir ++ ('/') :: fn)
        (replaceRange lastL (i + 5) (i + 5 + 1)
          (s.root ++ (':') :: s.name ++ " - ".data) ++
         ", Elapsed: ".data ++ intDigs e ++ "us".data) ∧
      w'.console = w.console ∧ w'.bufs = w.bufs := by
  have hnd : ¬ s.died = true := by simp [hd]
  have hnbox : ¬ (¬ s.ease = true ∨ ([l0, lastL] : List (List Char)).length > 2) := by
    simp [he]
  have hlast : ([l0, lastL] : List (List Char)).getLast? = some lastL := rfl
  have hln : lookupA (Logger.new w s.root now.hour).loggers s.root = some inner := by
    rw [Logger.new_of_mem w s.root now.hour inner hl]
    exact hl
  obtain ⟨fn, w', hwl, hwd, hwc, hwb, _⟩ := write_line_spec_dir w s.root
    (joinNL [replaceRange lastL (i + 5) (i + 5 + 1)
        (s.root ++ (':') :: s.name ++ " - ".data) ++
      ", Elapsed: ".data ++ intDigs e ++ "us".data]) now inner hl hwf
  refine ⟨w', fn, ?_, ?_, hwc, hwb⟩
  · rw [Session.dump, if_neg hnd]
    simp only [hb]
    rw [if_neg hnbox]
    simp only [hlast, hfind]
    rw [Logger.new_of_mem w s.root now.hour inner hl, hwl]
  · rw [joinNL_single] at hwd
    exact hwd

/-- C5: a session with zero real content (the buffer holds only the implicit
start marker, the end marker being appended at drop time) and ease-on-empty
enabled, completing unnested under a default-processor logger, writes exactly
one line — no newline inside, written under the root logger's directory —
which carries the `root:name` identity and the `, Elapsed: <e>us` suffix and
contains no box-drawing border character. -/
theorem c5_ease_single_line (w : World) (s : Session) (inner : Inner)
    (cur : DateTime) (e : Int) (startL : List Char)
    (hd : s.died = false) (hp : s.pass = false) (he : s.ease = true)
    (hl : lookupA w.loggers s.root = some inner) (hproc : inner.proc = processor)
    (hbuf : lookupB w.bufs s.msgs = some [startL]) (hwf : filesWF w)
    (hroot : cleanStr s.root) (hname : cleanStr s.name) (hfile : cleanStr s.file) :
    ∃ w' line fn,
      Session.drop w s cur e = some ({ s with died := true }, w') ∧
      w'.disk = appendDisk w.disk (inner.dir ++ ('/') :: fn) line ∧
      ('\n') ∉ line ∧
      (∀ c ∈ line, c ∉ borderChars) ∧
      (∃ u v, line = u ++ (s.root ++ (':') :: s.name) ++ v) ∧
      (∃ u, line = u ++ (", Elapsed: ".data ++ intDigs e ++ "us".data)) := by
  have hnd : ¬ s.died = true := by simp [hd]
  have hnp : ¬ s.pass = true := by simp [hp]
  -- the SessionEnd emission: printed and buffered unconditionally
  have hlog : Session.log w s (Context.sessionEnd cur e s.file s.line s.root s.name) =
      some ((w.pushConsole
          (processor (Context.sessionEnd cur e s.file s.line s.root s.name)).1).pushBuf
        s.msgs ((processor (Context.sessionEnd cur e s.file s.line s.root s.name)).2)) := by
    rw [Session.log, if_neg hnd, if_neg hnp]
    simp only [hl, hproc]
    rfl
  -- the end-marker file line and its decomposition
  have hendF : (processor (Context.sessionEnd cur e s.file s.line s.root s.name)).2 =
      cur.rfc3339 ++ "     ".data ++ (s.file ++ (':') :: natDigs s.line) ++
        " - Session end".data := rfl
  have hsp5 : "     ".data = List.replicate 5 (' ') := by decide
  have hfind : findFiveSp
      ((processor (Context.sessionEnd cur e s.file s.line s.root s.name)).2) =
      some (cur.rfc3339).length := by
    rw [hendF, hsp5]
    rw [show cur.rfc3339 ++ List.replicate 5 (' ') ++
        (s.file ++ (':') :: natDigs s.line) ++ " - Session end".data =
        cur.rfc3339 ++ (List.replicate 5 (' ') ++
          ((s.file ++ (':') :: natDigs s.line) ++ " - Session end".data)) by
      simp [List.append_assoc]]
    exact findFiveSp_append _ _ (plainStr_no_space (rfc3339_plain cur))
  -- the state after the emission
  have hb2 : lookupB ((w.pushConsole
      (processor (Context.sessionEnd cur e s.file s.line s.root s.name)).1).pushBuf
        s.msgs ((processor (Context.sessionEnd cur e s.file s.line s.root s.name)).2)).bufs
      s.msgs = some [startL,
        (processor (Context.sessionEnd cur e s.file s.line s.root s.name)).2] := by
    have h0 := lookupB_pushBuf_self
      (w.pushConsole (processor (Context.sessionEnd cur e s.file s.line s.root s.name)).1)
      s.msgs ((processor (Context.sessionEnd cur e s.file s.line s.root s.name)).2)
      [startL] (by rw [pushConsole_bufs]; exact hbuf)
    simpa using h0
  have hl2 : lookupA ((w.pushConsole
      (processor (Context.sessionEnd cur e s.file s.line s.root s.name)).1).pushBuf
        s.msgs ((processor (Context.sessionEnd cur e s.file s.line s.root s.name)).2)).loggers
      s.root = some inner := by
    rw [pushBuf_loggers, pushConsole_loggers]
    exact hl
  have hwf2 : filesWF ((w.pushConsole
      (processor (Context.sessionEnd cur e s.file s.line s.root s.name)).1).pushBuf
        s.msgs ((processor (Context.sessionEnd cur e s.file s.line s.root s.name)).2)) := by
    intro d p hp2
    rw [pushBuf_files, pushConsole_files] at hp2
    exact hwf d p hp2
  obtain ⟨w', fn, hdump, hdisk, _, _⟩ := dump_ease_spec _ s e cur inner startL
    ((processor (Context.sessionEnd cur e s.file s.line s.root s.name)).2)
    (cur.rfc3339).length hd he hl2 hwf2 hb2 hfind
  -- decompose the tail after the separator to evaluate the splice
  obtain ⟨x, B, hxB⟩ : ∃ x B, s.file ++ (':') :: natDigs s.line ++
      " - Session end".data = x :: B := by
    cases s.file with
    | nil => exact ⟨_, _, rfl⟩
    | cons c f' => exact ⟨_, _, rfl⟩
  have hAlen : (cur.rfc3339 ++ List.replicate 5 (' ')).length =
      (cur.rfc3339).length + 5 := by simp
  have hsplice : replaceRange
      ((processor (Context.sessionEnd cur e s.file s.line s.root s.name)).2)
      ((cur.rfc3339).length + 5) ((cur.rfc3339).length + 5 + 1)
      (s.root ++ (':') :: s.name ++ " - ".data) =
      (cur.rfc3339 ++ List.replicate 5 (' ')) ++
        (s.root ++ (':') :: s.name ++ " - ".data) ++ B := by
    rw [hendF, hsp5]
    rw [show cur.rfc3339 ++ List.replicate 5 (' ') ++
        (s.file ++ (':') :: natDigs s.line) ++ " - Session end".data =
        (cur.rfc3339 ++ List.replicate 5 (' ')) ++ (x :: B) by
      rw [List.append_assoc (cur.rfc3339 ++ List.replicate 5 (' ')), hxB]]
    rw [← hAlen]
    exact replaceRange_at _ _ _ _
  -- cleanliness of every piece of the final line
  have hBclean : cleanStr B := by
    have hwhole : cleanStr (s.file ++ (':') :: natDigs s.line ++
        " - Session end".data) :=
      cleanStr_append (cleanStr_append hfile (cleanStr_cons (by decide)
        (plainStr_cleanStr (natDigs_plain _)))) (by decide)
    rw [hxB] at hwhole
    exact fun c hc => hwhole c (List.mem_cons_of_mem _ hc)
  have hclean : cleanStr ((cur.rfc3339 ++ List.replicate 5 (' ')) ++
      (s.root ++ (':') :: s.name ++ " - ".data) ++ B ++
      ", Elapsed: ".data ++ intDigs e ++ "us".data) := by
    refine cleanStr_append (cleanStr_append (cleanStr_append (cleanStr_append
      (cleanStr_append ?_ ?_) hBclean) (by decide))
      (plainStr_cleanStr (intDigs_plain e))) (by decide)
    · exact cleanStr_append (plainStr_cleanStr (rfc3339_plain cur)) (by decide)
    · exact cleanStr_append (cleanStr_append hroot (cleanStr_cons (by decide) hname))
        (by decide)
  refine ⟨w', _, fn, ?_, ?_, cleanStr_no_newline hclean, cleanStr_no_border hclean,
    ⟨cur.rfc3339 ++ List.replicate 5 (' '),
     " - ".data ++ B ++ ", Elapsed: ".data ++ intDigs e ++ "us".data,
     by simp [List.append_assoc]⟩,
    ⟨(cur.rfc3339 ++ List.replicate 5 (' ')) ++
       (s.root ++ (':') :: s.name ++ " - ".data) ++ B,
     by simp [List.append_assoc]⟩⟩
  · simp only [Session.drop, hlog]
    exact hdump
  · rw [← hsplice]
    rw [show ((w.pushConsole
        (processor (Context.sessionEnd cur e s.file s.line s.root s.name)).1).pushBuf
          s.msgs ((processor
            (Context.sessionEnd cur e s.file s.line s.root s.name)).2)).disk = w.disk
      from rfl] at hdisk
    exact hdisk

/-- Witness for C5 at the unnested content-free fixture session. -/
theorem c5_ease_single_line_witness :
    ∃ w' line fn,
      Session.drop fixWEase fixRootEase fixT2 42 =
        some ({ fixRootEase with died := true }, w') ∧
      w'.disk = appendDisk fixWEase.disk ((defaultInner 5).dir ++ ('/') :: fn) line ∧
      ('\n') ∉ line ∧
      (∀ c ∈ line, c ∉ borderChars) ∧
      (∃ u v, line = u ++ (fixRootEase.root ++ (':') :: fixRootEase.name) ++ v) ∧
      (∃ u, line = u ++ (", Elapsed: ".data ++ intDigs 42 ++ "us".data)) :=
  c5_ease_single_line fixWEase fixRootEase (defaultInner 5) fixT2 42 msgOne
    rfl rfl rfl rfl rfl rfl (fun _ _ h => nomatch h) (by decide) (by decide) (by decide)

/-- Witness for the amended C1: the nested box fixture's report lands in the
parent's buffer (id 0). -/
theorem c1_amended_routing_witness :
    Session.dump fixWBox fixBoxSes 7 fixT =
      some (fixBoxDead, fixWBox.appendBuf 0 (boxRender nameChi 7 msgsThree)) :=
  ((c1_amended_routing fixWBox fixBoxSes 7 fixT msgsThree rfl rfl).1
    (Or.inr (by decide))).1 0 rfl

end SessionLog
